import Mathlib

/-!
Verification of the notebook `floating-point-error-for-combined-functions.ipynb`.

The notebook compares the direct evaluation of sinc(x) = sin(x)/x against
truncated Taylor polynomials: it builds the polynomials (`series_coef`,
`series`), samples 50 log-spaced points (`x_range`), computes absolute errors
of both methods against an arbitrary-precision reference, classifies each
(order, sample) pair by elementwise comparison of the two error arrays
(`better`, `similar`, `worse`), reports per-order (min, max) error differences
over the `worse` mask (`report`), and plots one marker row per order at height
`len(s.coef)` (`y_data`).

Numeric values carried by lists (series coefficients, error magnitudes) are
modelled as exact rationals `ℚ`: the Python floats at those places are the
correctly rounded doubles of these rationals, and every claim settled here is
about list structure, comparison logic and aggregation, which the exact model
represents faithfully.  The sample grid produced by `np.logspace` consists of
irrational powers of ten and is modelled over `ℝ`.
-/

namespace SincNotebook

/-- The coefficient the notebook stores at index `p` of `series_coef`.
Cell 1 runs `series_coef = [0.] * (2*N - 1)` followed by the slice assignment
`series_coef[::2] = [(-1)**i / factorial(2*i + 1) for i in range(N)]`, which
writes `(-1)^i / (2*i+1)!` at even index `p = 2*i` — so the value at even `p`
is `(-1)^(p/2) / (p+1)!` — and leaves the initial `0.` at every odd index. -/
def taylor_coef (p : ℕ) : ℚ :=
  if p % 2 = 0 then (-1 : ℚ) ^ (p / 2) / (Nat.factorial (p + 1) : ℚ) else 0

/-- The list `series_coef` of cell 1: length `2*N - 1`, entry at index `p`
equal to `taylor_coef p` (zeros at odd indices, `(-1)^i/(2i+1)!` at `2*i`). -/
def series_coef (N : ℕ) : List ℚ :=
  (List.range (2 * N - 1)).map taylor_coef

/-- The list `series = [np.poly1d(series_coef[2*i::-1]) for i in range(1, N)]`
of cell 1.  The slice `series_coef[2*i::-1]` is the first `2*i + 1` entries of
`series_coef` reversed, i.e. the coefficients of the order-`i` truncation
listed from the highest power `2*i` down to the constant term, exactly as
`np.poly1d` stores them.  `range(1, N)` makes one polynomial per order
`i = 1, …, N-1`; entry `k` of the result is the polynomial of order `k + 1`. -/
def series (N : ℕ) : List (List ℚ) :=
  (List.range (N - 1)).map (fun k => ((series_coef N).take (2 * (k + 1) + 1)).reverse)

/-- The coefficient of `x^p` in an `np.poly1d`-style coefficient list `s`
(descending powers): the entry at position `s.length - 1 - p`. -/
def coeff_at_power (s : List ℚ) (p : ℕ) : ℚ :=
  s.getD (s.length - 1 - p) 0

/-- The mask `better = err_orig < err_series` of cell 6, elementwise over the
error arrays of one series order. -/
def better (eo es : List ℚ) : List Bool :=
  List.zipWith (fun a b => decide (a < b)) eo es

/-- The mask `similar = err_orig == err_series` of cell 6, elementwise over
the error arrays of one series order. -/
def similar (eo es : List ℚ) : List Bool :=
  List.zipWith (fun a b => decide (a = b)) eo es

/-- The mask `worse = err_orig > err_series` of cell 6, elementwise over the
error arrays of one series order. -/
def worse (eo es : List ℚ) : List Bool :=
  List.zipWith (fun a b => decide (b < a)) eo es

/-- One row of `difference = np.abs((err_orig - err_series).astype(float))`
of cell 6: the magnitude of the difference of the two error values at each
sample, for one series order. -/
def difference (eo es : List ℚ) : List ℚ :=
  List.zipWith (fun a b => |a - b|) eo es

/-- NumPy boolean-mask selection `d[w]`: the entries of `d` at the positions
where the mask `w` is `true`. -/
def maskSelect (d : List ℚ) (w : List Bool) : List ℚ :=
  (d.zip w).filterMap (fun p => if p.2 then some p.1 else none)

/-- The reported pairs
`[(d[w].min(), d[w].max()) for d, w in zip(difference, worse)]` of cell 6:
for each series order, the minimum and maximum of the error differences over
the samples where the direct formula is *worse* (`err_orig > err_series`).
`none` models the `ValueError` NumPy raises for `.min()` or `.max()` of an
empty selection. -/
def report (eo : List ℚ) (ess : List (List ℚ)) : List (Option ℚ × Option ℚ) :=
  ess.map (fun es =>
    let sel := maskSelect (difference eo es) (worse eo es)
    (sel.min?, sel.max?))

/-- The reporting step as the spec's sentence for claim C1 words it:
aggregating over the samples classified "direct better"
(`err_orig < err_series`) instead of over the `worse` mask.  This definition
follows the spec, not the notebook, and exists only to be compared against
`report`, which is the notebook's actual computation. -/
def report_direct_better_spec (eo : List ℚ) (ess : List (List ℚ)) :
    List (Option ℚ × Option ℚ) :=
  ess.map (fun es =>
    let sel := maskSelect (difference eo es) (better eo es)
    (sel.min?, sel.max?))

/-- The vertical plot coordinates
`y_data = [np.repeat(len(s.coef), len(x_range)) for s in series]` of cell 10:
one row per series order, every entry of the row being the *number of
coefficients* of that order's polynomial. -/
def y_data (N nx : ℕ) : List (List ℕ) :=
  (series N).map (fun s => List.replicate nx s.length)

/-- The exponents of `np.logspace(-10, 0, 50)`, i.e. `linspace(-10, 0, 50)`:
the value `-10 + 10 * i / 49` for `i = 0, …, 49`. -/
def logspace_exponent (i : Fin 50) : ℚ :=
  -10 + 10 * (i : ℕ) / 49

/-- The sample grid `x_range = np.logspace(-10, 0, 50)` of cell 1: the points
`10 ^ e_i` with `e_i = -10 + 10*i/49`, as exact real numbers. -/
noncomputable def x_range (i : Fin 50) : ℝ :=
  (10 : ℝ) ^ ((logspace_exponent i : ℚ) : ℝ)

/-- The direct formula `r_orig = np.sin(x) / x` of cell 4 at one sample point,
in the exact-real model. -/
noncomputable def r_orig (i : Fin 50) : ℝ :=
  Real.sin (x_range i) / x_range i

/-- The reference evaluator `ref = [mp.sin(x)/x for z in x_range for x in (mp.mpf(z),)]`
of cell 3 at one sample point: the same expression sin(x)/x, evaluated by
mpmath at 1000 decimal digits, idealized here as the exact real value. -/
noncomputable def ref (i : Fin 50) : ℝ :=
  Real.sin (x_range i) / x_range i

/-- The constants embedded in the notebook: sample exponent range, sample
count, maximum series order `N`, and mpmath decimal precision `mp.mp.dps`. -/
structure Config where
  exp_lo : ℚ
  exp_hi : ℚ
  num_samples : ℕ
  max_order : ℕ
  dps : ℕ

/-- The per-order classification labels of cell 6: for each series order, the
three masks `better`, `similar`, `worse` against the direct-formula errors. -/
def labels (eo : List ℚ) (ess : List (List ℚ)) :
    List (List Bool × List Bool × List Bool) :=
  ess.map (fun es => (better eo es, similar eo es, worse eo es))

/-- The comparison-and-report pipeline of cell 6, as a function of the
notebook's constants.  The error arrays are produced upstream by fixed,
deterministic library computations (NumPy double arithmetic and mpmath at the
configured precision) applied to the constants; `errD` and `errS` stand for
those computations, so running the notebook twice with the same constants
means evaluating `pipeline errD errS` twice at the same `Config`. -/
def pipeline (errD : Config → List ℚ) (errS : Config → List (List ℚ))
    (cfg : Config) :
    List (List Bool × List Bool × List Bool) × List (Option ℚ × Option ℚ) :=
  (labels (errD cfg) (errS cfg), report (errD cfg) (errS cfg))

/-- Unfold `List.getD` at an index known to be in bounds. -/
theorem getD_of_lt {α : Type} (l : List α) (n : ℕ) (d : α) (h : n < l.length) :
    l.getD n d = l[n] := by
  simp [List.getD_eq_getElem?_getD, List.getElem?_eq_getElem h]

/-- Entry of a `zipWith` at an in-bounds index, phrased with `getD`. -/
theorem zipWith_getD {α β γ : Type} (f : α → β → γ) (l1 : List α) (l2 : List β)
    (k : ℕ) (d1 : α) (d2 : β) (d : γ) (h1 : k < l1.length) (h2 : k < l2.length) :
    (List.zipWith f l1 l2).getD k d = f (l1.getD k d1) (l2.getD k d2) := by
  have hz : k < (List.zipWith f l1 l2).length := by
    rw [List.length_zipWith]; omega
  rw [getD_of_lt _ _ _ hz, getD_of_lt _ _ _ h1, getD_of_lt _ _ _ h2,
    List.getElem_zipWith]

/-- The series builder returns `N - 1` polynomials. -/
theorem length_series (N : ℕ) : (series N).length = N - 1 := by
  simp [series]

/-- The full coefficient list has length `2*N - 1`. -/
theorem length_series_coef (N : ℕ) : (series_coef N).length = 2 * N - 1 := by
  simp [series_coef]

/-- The `k`-th polynomial of `series` is the reversed `(2*(k+1)+1)`-entry
truncation of the full coefficient list. -/
theorem series_getD_eq (N k : ℕ) (hk : k < N - 1) :
    (series N).getD k [] = ((series_coef N).take (2 * (k + 1) + 1)).reverse := by
  have hk' : k < (series N).length := by simpa [length_series] using hk
  rw [getD_of_lt _ _ _ hk']
  simp [series]

/-- The `k`-th polynomial of `series` has `2*(k+1) + 1` coefficients. -/
theorem length_series_getD (N k : ℕ) (hk : k < N - 1) :
    ((series N).getD k []).length = 2 * (k + 1) + 1 := by
  rw [series_getD_eq N k hk]
  simp [length_series_coef]
  omega

/-- Entry `j` of the `k`-th polynomial of `series` is the Taylor coefficient
of the power `2*(k+1) - j`: the coefficients are listed from the highest
power down to the constant term. -/
theorem series_getD_getD (N k j : ℕ) (hk : k < N - 1) (hj : j ≤ 2 * (k + 1)) :
    ((series N).getD k []).getD j 0 = taylor_coef (2 * (k + 1) - j) := by
  rw [series_getD_eq N k hk]
  have h1 : j < (((series_coef N).take (2 * (k + 1) + 1)).reverse).length := by
    simp [length_series_coef]
    omega
  rw [getD_of_lt _ _ _ h1, List.getElem_reverse, List.getElem_take]
  simp only [series_coef, List.getElem_map, List.getElem_range]
  congr 1
  simp only [List.length_take, List.length_map, List.length_range]
  omega

/-- The stored coefficient at an even power `2*i` is `(-1)^i / (2*i+1)!`. -/
theorem taylor_coef_even (i : ℕ) :
    taylor_coef (2 * i) = (-1 : ℚ) ^ i / (Nat.factorial (2 * i + 1) : ℚ) := by
  have h1 : 2 * i % 2 = 0 := by omega
  have h2 : 2 * i / 2 = i := by omega
  simp [taylor_coef, h1, h2]

/-- The stored coefficient at an odd power is zero. -/
theorem taylor_coef_odd (p : ℕ) (hp : p % 2 = 1) : taylor_coef p = 0 := by
  simp [taylor_coef, hp]

/-- Row `k` of `y_data` is `nx` copies of the coefficient count
`2*(k+1) + 1` of the `k`-th polynomial. -/
theorem y_data_getD (N nx k : ℕ) (hk : k < N - 1) :
    (y_data N nx).getD k [] = List.replicate nx (2 * (k + 1) + 1) := by
  have hs : k < (series N).length := by rw [length_series]; exact hk
  have hk' : k < (y_data N nx).length := by simp [y_data, length_series]; omega
  rw [getD_of_lt _ _ _ hk']
  simp only [y_data, List.getElem_map]
  rw [← getD_of_lt (series N) k [] hs, length_series_getD N k hk]

/-- An entry of `d` selected by a mask that is `true` at its index is a member
of the masked selection `d[w]`. -/
theorem mem_maskSelect_of_getD (d : List ℚ) (w : List Bool) (j : ℕ)
    (hjd : j < d.length) (hjw : j < w.length) (hw : w.getD j false = true) :
    d.getD j 0 ∈ maskSelect d w := by
  unfold maskSelect
  apply List.mem_filterMap.mpr
  have hz : j < (d.zip w).length := by rw [List.length_zip]; omega
  have hmem : (d.zip w)[j] ∈ d.zip w := List.getElem_mem hz
  rw [List.getElem_zip, ← getD_of_lt d j 0 hjd, ← getD_of_lt w j false hjw,
    hw] at hmem
  exact ⟨(d.getD j 0, true), hmem, by simp⟩

/-- Claim C1 (counterexample): the claim says the per-order (min, max) pair is
computed over the samples classified "direct better".  With error arrays
`err_orig = [1, 5]` and `err_series = [[3, 2]]`, sample 0 is "direct better"
(difference 2) and sample 1 is "series better" (difference 3); the notebook's
report returns `(3, 3)` — the pair over the `worse` mask — while aggregating
over "direct better" as claimed would return `(2, 2)`. -/
theorem C1_report_mask_counterexample :
    report [1, 5] [[3, 2]] = [(some 3, some 3)] ∧
    maskSelect (difference [1, 5] [3, 2]) (better [1, 5] [3, 2]) = [2] ∧
    report_direct_better_spec [1, 5] [[3, 2]] = [(some 2, some 2)] ∧
    report [1, 5] [[3, 2]] ≠ report_direct_better_spec [1, 5] [[3, 2]] := by
  refine ⟨?_, ?_, ?_, ?_⟩
  · norm_num [report, maskSelect, difference, worse, List.min?, List.max?, abs,
      List.filterMap_cons]
  · norm_num [maskSelect, difference, better, abs, List.filterMap_cons]
  · norm_num [report_direct_better_spec, maskSelect, difference, better,
      List.min?, List.max?, abs, List.filterMap_cons]
  · norm_num [report, report_direct_better_spec, maskSelect, difference, better,
      worse, List.min?, List.max?, abs, List.filterMap_cons]

/-- Claim C1 (amended): in the Comparator's reporting step, the per-order
(minimum, maximum) pair of error-difference magnitudes is computed over
exactly those samples classified as "series better" (direct-formula error
strictly greater than series error) for that order: whenever some sample `j`
of order `k` is so classified, the reported pair of that order is defined,
both components belong to the masked selection of difference magnitudes, and
they bound the difference magnitude of every such sample `j` from below and
above respectively. -/
theorem C1_report_minmax_over_series_better (eo es : List ℚ)
    (ess : List (List ℚ)) (k j : ℕ)
    (hk : k < ess.length) (hes : ess.getD k [] = es)
    (hjo : j < eo.length) (hjs : j < es.length)
    (hworse : es.getD j 0 < eo.getD j 0) :
    ∃ mn mx : ℚ,
      (report eo ess).getD k (none, none) = (some mn, some mx) ∧
      mn ∈ maskSelect (difference eo es) (worse eo es) ∧
      mx ∈ maskSelect (difference eo es) (worse eo es) ∧
      mn ≤ |eo.getD j 0 - es.getD j 0| ∧ |eo.getD j 0 - es.getD j 0| ≤ mx := by
  have hdiffj : (difference eo es).getD j 0 = |eo.getD j 0 - es.getD j 0| :=
    zipWith_getD _ eo es j 0 0 0 hjo hjs
  have hworsej : (worse eo es).getD j false = true := by
    rw [worse, zipWith_getD _ eo es j 0 0 false hjo hjs]
    exact decide_eq_true hworse
  have hdlen : j < (difference eo es).length := by
    rw [difference, List.length_zipWith]; omega
  have hwlen : j < (worse eo es).length := by
    rw [worse, List.length_zipWith]; omega
  have hmem : |eo.getD j 0 - es.getD j 0| ∈ maskSelect (difference eo es) (worse eo es) := by
    rw [← hdiffj]
    exact mem_maskSelect_of_getD _ _ j hdlen hwlen hworsej
  have hne : maskSelect (difference eo es) (worse eo es) ≠ [] :=
    List.ne_nil_of_mem hmem
  obtain ⟨mn, hmn⟩ : ∃ mn, (maskSelect (difference eo es) (worse eo es)).min? = some mn := by
    cases h : (maskSelect (difference eo es) (worse eo es)).min? with
    | none => exact absurd (List.min?_eq_none_iff.mp h) hne
    | some m => exact ⟨m, rfl⟩
  obtain ⟨mx, hmx⟩ : ∃ mx, (maskSelect (difference eo es) (worse eo es)).max? = some mx := by
    cases h : (maskSelect (difference eo es) (worse eo es)).max? with
    | none => exact absurd (List.max?_eq_none_iff.mp h) hne
    | some m => exact ⟨m, rfl⟩
  have hrep : (report eo ess).getD k (none, none)
      = ((maskSelect (difference eo es) (worse eo es)).min?,
         (maskSelect (difference eo es) (worse eo es)).max?) := by
    have hk' : k < (report eo ess).length := by rw [report, List.length_map]; omega
    rw [getD_of_lt _ _ _ hk']
    simp only [report, List.getElem_map]
    rw [← getD_of_lt ess k [] hk, hes]
  refine ⟨mn, mx, by rw [hrep, hmn, hmx],
    List.min?_mem (fun a b => min_choice a b) hmn,
    List.max?_mem (fun a b => max_choice a b) hmx, ?_, ?_⟩
  · exact (List.le_min?_iff (fun a b c => le_min_iff) hmn).mp (le_refl mn) _ hmem
  · exact (List.max?_le_iff (fun a b c => max_le_iff) hmx).mp (le_refl mx) _ hmem

/-- Witness for the amended claim C1, at `err_orig = [1, 5]`,
`err_series = [[3, 2]]`, order 0, sample 1. -/
theorem C1_report_minmax_over_series_better_witness :
    (0 < ([[(3 : ℚ), 2]]).length) ∧ (([[(3 : ℚ), 2]]).getD 0 [] = [3, 2]) ∧
    (1 < ([(1 : ℚ), 5]).length) ∧ (1 < ([(3 : ℚ), 2]).length) ∧
    (([(3 : ℚ), 2]).getD 1 0 < ([(1 : ℚ), 5]).getD 1 0) ∧
    (∃ mn mx : ℚ,
      (report [1, 5] [[3, 2]]).getD 0 (none, none) = (some mn, some mx) ∧
      mn ∈ maskSelect (difference [1, 5] [3, 2]) (worse [1, 5] [3, 2]) ∧
      mx ∈ maskSelect (difference [1, 5] [3, 2]) (worse [1, 5] [3, 2]) ∧
      mn ≤ |([(1 : ℚ), 5]).getD 1 0 - ([(3 : ℚ), 2]).getD 1 0| ∧
      |([(1 : ℚ), 5]).getD 1 0 - ([(3 : ℚ), 2]).getD 1 0| ≤ mx) :=
  ⟨by simp, by simp, by simp, by simp, by norm_num,
   C1_report_minmax_over_series_better [1, 5] [3, 2] [[3, 2]] 0 1
     (by simp) (by simp) (by simp) (by simp) (by norm_num)⟩

/-- Claim C3 (counterexample): with `N = 8` the builder returns 7 polynomials,
not the `8 - 2 = 6` that "one polynomial per order from 2 to N-1" would give,
and the first polynomial has 3 coefficients, i.e. degree `2*1`: a polynomial
of order 1 exists, so the smallest order is not 2. -/
theorem C3_smallest_order_counterexample :
    (series 8).length = 7 ∧ ((series 8).getD 0 []).length = 2 * 1 + 1 ∧
    (7 : ℕ) ≠ 8 - 2 := by
  refine ⟨by simp [series], ?_, by decide⟩
  simpa using length_series_getD 8 0 (by decide)

/-- Claim C3 (amended): the Series Builder produces one truncated Taylor
polynomial per order from 1 to N-1 (with N fixed at 8), the polynomial at
order `k + 1` having `2*(k+1) + 1` coefficients (degree `2*(k+1)`); the
smallest order for which a polynomial exists is 1. -/
theorem C3_one_polynomial_per_order_from_one :
    (series 8).map List.length = (List.range 7).map (fun k => 2 * (k + 1) + 1) := by
  simp [series, series_coef, List.range_succ]

/-- Claim C4 (counterexample): the Visualizer places the first series order's
marker row at vertical coordinate 3 (`len(s.coef)`), while that order's
polynomial degree is `2*1 = 2`: the row height is not the polynomial degree. -/
theorem C4_marker_row_height_counterexample :
    ((y_data 8 50).getD 0 []).getD 0 0 = 3 ∧
    ((series 8).getD 0 []).length - 1 = 2 * 1 ∧ (3 : ℕ) ≠ 2 * 1 := by
  refine ⟨?_, ?_, by decide⟩
  · rw [y_data_getD 8 50 0 (by decide)]
    decide
  · rw [length_series_getD 8 0 (by decide)]

/-- Claim C4 (amended): the Visualizer places each series order's row of
markers at a vertical coordinate equal to that order's coefficient count
`len(s.coef)`, which is the polynomial degree plus one, i.e. `2*order + 1`,
for every series order produced by the builder. -/
theorem C4_marker_rows_at_coefficient_count (N nx k : ℕ) (hk : k < N - 1) :
    (y_data N nx).getD k [] = List.replicate nx (((series N).getD k []).length) ∧
    ((series N).getD k []).length = 2 * (k + 1) + 1 := by
  have h := length_series_getD N k hk
  exact ⟨by rw [y_data_getD N nx k hk, h], h⟩

/-- Witness for the amended claim C4, at `N = 8`, 50 samples, first order. -/
theorem C4_marker_rows_at_coefficient_count_witness :
    (0 < 8 - 1) ∧
    ((y_data 8 50).getD 0 [] = List.replicate 50 (((series 8).getD 0 []).length) ∧
     ((series 8).getD 0 []).length = 2 * (0 + 1) + 1) :=
  ⟨by decide, C4_marker_rows_at_coefficient_count 8 50 0 (by decide)⟩

/-- Claim C5: for every integer order bound `N ≥ 2` (including `N = 2`), the
Series Builder returns exactly `N - 1` polynomials, one for each order
`1 … N-1` (the `k`-th having order `k + 1`), where the polynomial at a given
order contains coefficients only for terms up to power `2*order` (it has
exactly `2*order + 1` entries) ordered from highest to lowest degree (entry
`j` is the Taylor coefficient of power `2*order - j`), without failure. -/
theorem C5_series_builder_shape (N k j : ℕ) (_hN : 2 ≤ N) (hk : k < N - 1)
    (hj : j ≤ 2 * (k + 1)) :
    (series N).length = N - 1 ∧
    ((series N).getD k []).length = 2 * (k + 1) + 1 ∧
    ((series N).getD k []).getD j 0 = taylor_coef (2 * (k + 1) - j) :=
  ⟨length_series N, length_series_getD N k hk, series_getD_getD N k j hk hj⟩

/-- Witness for claim C5, at the smallest bound `N = 2`. -/
theorem C5_series_builder_shape_witness :
    (2 ≤ 2) ∧ (0 < 2 - 1) ∧ (0 ≤ 2 * (0 + 1)) ∧
    ((series 2).length = 2 - 1 ∧
     ((series 2).getD 0 []).length = 2 * (0 + 1) + 1 ∧
     ((series 2).getD 0 []).getD 0 0 = taylor_coef (2 * (0 + 1) - 0)) :=
  ⟨by decide, by decide, by decide,
   C5_series_builder_shape 2 0 0 (by decide) (by decide) (by decide)⟩

/-- Claim C6: for every polynomial generated by the Series Builder (the `k`-th
polynomial has order `k + 1`), the coefficient at each odd power equals zero,
and the coefficient at power `2*i` equals `(-1)^i / (2*i+1)!` for all `i` from
0 up to the polynomial's order.  In this exact-rational model the equality is
exact, hence in particular within standard floating-point tolerance: the
notebook's floats are the correctly rounded doubles of these values. -/
theorem C6_coefficient_values (N k i p : ℕ) (hk : k < N - 1) (hi : i ≤ k + 1)
    (hp : p ≤ 2 * (k + 1)) (hpodd : p % 2 = 1) :
    coeff_at_power ((series N).getD k []) (2 * i)
      = (-1 : ℚ) ^ i / (Nat.factorial (2 * i + 1) : ℚ) ∧
    coeff_at_power ((series N).getD k []) p = 0 := by
  have hlen := length_series_getD N k hk
  constructor
  · unfold coeff_at_power
    rw [hlen]
    have hidx : 2 * (k + 1) + 1 - 1 - 2 * i = 2 * (k + 1) - 2 * i := by omega
    rw [hidx, series_getD_getD N k _ hk (by omega)]
    have h2 : 2 * (k + 1) - (2 * (k + 1) - 2 * i) = 2 * i := by omega
    rw [h2, taylor_coef_even]
  · unfold coeff_at_power
    rw [hlen]
    have hidx : 2 * (k + 1) + 1 - 1 - p = 2 * (k + 1) - p := by omega
    rw [hidx, series_getD_getD N k _ hk (by omega)]
    have h2 : 2 * (k + 1) - (2 * (k + 1) - p) = p := by omega
    rw [h2]
    exact taylor_coef_odd p hpodd

/-- Witness for claim C6, at `N = 8`, second polynomial, even power 2 and odd
power 1. -/
theorem C6_coefficient_values_witness :
    (1 < 8 - 1) ∧ (1 ≤ 1 + 1) ∧ (1 ≤ 2 * (1 + 1)) ∧ (1 % 2 = 1) ∧
    (coeff_at_power ((series 8).getD 1 []) (2 * 1)
       = (-1 : ℚ) ^ 1 / (Nat.factorial (2 * 1 + 1) : ℚ) ∧
     coeff_at_power ((series 8).getD 1 []) 1 = 0) :=
  ⟨by decide, by decide, by decide, by decide,
   C6_coefficient_values 8 1 1 1 (by decide) (by decide) (by decide) (by decide)⟩

/-- Claim C7: for every (series order, sample point) pair, the classification
is "equal" exactly when the direct-formula error equals the series error,
"direct better" exactly when it is strictly less, "series better" exactly when
it is strictly greater, and the three classifications are mutually exclusive
and exhaustive. -/
theorem C7_classification_trichotomy (eo es : List ℚ) (k : ℕ)
    (hko : k < eo.length) (hks : k < es.length) :
    ((similar eo es).getD k false = true ↔ eo.getD k 0 = es.getD k 0) ∧
    ((better eo es).getD k false = true ↔ eo.getD k 0 < es.getD k 0) ∧
    ((worse eo es).getD k false = true ↔ es.getD k 0 < eo.getD k 0) ∧
    ((better eo es).getD k false = true ∨ (similar eo es).getD k false = true ∨
      (worse eo es).getD k false = true) ∧
    ¬((better eo es).getD k false = true ∧ (similar eo es).getD k false = true) ∧
    ¬((better eo es).getD k false = true ∧ (worse eo es).getD k false = true) ∧
    ¬((similar eo es).getD k false = true ∧ (worse eo es).getD k false = true) := by
  have hb := zipWith_getD (fun a b : ℚ => decide (a < b)) eo es k 0 0 false hko hks
  have hs := zipWith_getD (fun a b : ℚ => decide (a = b)) eo es k 0 0 false hko hks
  have hw := zipWith_getD (fun a b : ℚ => decide (b < a)) eo es k 0 0 false hko hks
  simp only [better, similar, worse, hb, hs, hw, decide_eq_true_eq]
  refine ⟨trivial, trivial, trivial, lt_trichotomy _ _, ?_, ?_, ?_⟩
  · exact fun h => absurd h.2 (ne_of_lt h.1)
  · exact fun h => lt_asymm h.1 h.2
  · exact fun h => absurd h.1 (ne_of_gt h.2)

/-- Witness for claim C7, at the error arrays `[1]` and `[2]`, sample 0. -/
theorem C7_classification_trichotomy_witness :
    (0 < ([(1 : ℚ)]).length) ∧ (0 < ([(2 : ℚ)]).length) ∧
    (((similar [(1 : ℚ)] [(2 : ℚ)]).getD 0 false = true ↔
        ([(1 : ℚ)]).getD 0 0 = ([(2 : ℚ)]).getD 0 0) ∧
     ((better [(1 : ℚ)] [(2 : ℚ)]).getD 0 false = true ↔
        ([(1 : ℚ)]).getD 0 0 < ([(2 : ℚ)]).getD 0 0) ∧
     ((worse [(1 : ℚ)] [(2 : ℚ)]).getD 0 false = true ↔
        ([(2 : ℚ)]).getD 0 0 < ([(1 : ℚ)]).getD 0 0) ∧
     ((better [(1 : ℚ)] [(2 : ℚ)]).getD 0 false = true ∨
      (similar [(1 : ℚ)] [(2 : ℚ)]).getD 0 false = true ∨
      (worse [(1 : ℚ)] [(2 : ℚ)]).getD 0 false = true) ∧
     ¬((better [(1 : ℚ)] [(2 : ℚ)]).getD 0 false = true ∧
       (similar [(1 : ℚ)] [(2 : ℚ)]).getD 0 false = true) ∧
     ¬((better [(1 : ℚ)] [(2 : ℚ)]).getD 0 false = true ∧
       (worse [(1 : ℚ)] [(2 : ℚ)]).getD 0 false = true) ∧
     ¬((similar [(1 : ℚ)] [(2 : ℚ)]).getD 0 false = true ∧
       (worse [(1 : ℚ)] [(2 : ℚ)]).getD 0 false = true)) :=
  ⟨by simp, by simp,
   C7_classification_trichotomy [(1 : ℚ)] [(2 : ℚ)] 0 (by simp) (by simp)⟩

/-- Claim C8: every point of the generated sample set is strictly positive —
each is `10` raised to a real exponent, and the log-spaced range excludes zero
by construction — so the divisions sin(x)/x in the direct formula `r_orig`
and in the reference evaluator `ref` never divide by zero: multiplying either
quotient back by its denominator recovers sin(x). -/
theorem C8_samples_positive :
    ∀ i : Fin 50, 0 < x_range i ∧ x_range i ≠ 0 ∧
      r_orig i * x_range i = Real.sin (x_range i) ∧
      ref i * x_range i = Real.sin (x_range i) := by
  intro i
  have h : 0 < x_range i := Real.rpow_pos_of_pos (by norm_num) _
  exact ⟨h, ne_of_gt h, div_mul_cancel₀ _ (ne_of_gt h),
    div_mul_cancel₀ _ (ne_of_gt h)⟩

/-- Claim C10: re-running the pipeline with identical constants produces
identical classification labels for every (order, sample) pair and identical
(min, max) error-difference pairs for every order.  The upstream error arrays
are fixed deterministic library computations applied to the constants
(abstracted as the functions `errD`, `errS`; the notebook uses no randomness,
clock, or external input), so two runs with equal configurations evaluate the
same function at the same argument. -/
theorem C10_pipeline_deterministic (errD : Config → List ℚ)
    (errS : Config → List (List ℚ)) (c1 c2 : Config) (h : c1 = c2) :
    pipeline errD errS c1 = pipeline errD errS c2 := by
  rw [h]

/-- Witness for claim C10, at the notebook's constants (exponent range
-10 … 0, 50 samples, N = 8, 1000 decimal digits). -/
theorem C10_pipeline_deterministic_witness :
    (Config.mk (-10) 0 50 8 1000 = Config.mk (-10) 0 50 8 1000) ∧
    pipeline (fun _ => [1]) (fun _ => [[2]]) (Config.mk (-10) 0 50 8 1000)
      = pipeline (fun _ => [1]) (fun _ => [[2]]) (Config.mk (-10) 0 50 8 1000) :=
  ⟨rfl, C10_pipeline_deterministic (fun _ => [1]) (fun _ => [[2]]) _ _ rfl⟩

end SincNotebook
